import Mathlib

/-! # vrcapriltags: the tag encoder and the frame loop

A shallow embedding of `vmc/apriltag_module/c/src/vrcapriltags.cpp`
(`jsonify_tag` and `main`) together with the properties checked against it.

Conventions of the embedding:

* text (`std::string`, `const char *` buffers) is a list of characters, the
  terminator being the character with code 0;
* floating-point values are only ever copied by the program, never computed
  with, so they are elements of an arbitrary type `α`;
* machine integers are integers with the reduction modulo `2^32` / `2^64`
  written out where the C++ performs a conversion or an increment;
* an indexed read that may fall outside its array returns an `Option`.
-/

namespace VrcAprilTags

/-! ## Data model -/

/-- Modelled from the spec: the declaration of `nvAprilTagsID_t` lives in a header
that is not part of the sources at hand. The spec describes a detection as an
identifier, a translation and a 3×3 rotation; `jsonify_tag` reads the fields
`id` and `translation`. The length of `translation` is left open. -/
structure nvAprilTagsID_t (α : Type) where
  id : Int
  translation : List α
  orientation : List (List α)
deriving DecidableEq, Repr

/-- The value stored under the key `pos`: an object with keys `x`, `y`, `z`. -/
structure Pos (α : Type) where
  x : α
  y : α
  z : α
deriving DecidableEq, Repr

/-- The `nlohmann::json` object built by `jsonify_tag`: keys `id`, `pos` and
`rotation`, the last one an array of arrays. -/
structure TagJson (α : Type) where
  id : Int
  pos : Pos α
  rotation : List (List α)
deriving DecidableEq, Repr

/-! ## `jsonify_tag` -/

/-- The body of `jsonify_tag`, with the read `detection.translation[k]` given as
`elem k` in a monad, the reads in the order the statements perform them. -/
def jsonify_tagM {m : Type → Type} [Monad m] {α : Type} (id : Int) (elem : Nat → m α) :
    m (TagJson α) := do
  let x ← elem 0
  let y ← elem 1
  let z ← elem 2
  let r00 ← elem 0
  let r01 ← elem 3
  let r02 ← elem 6
  let r10 ← elem 1
  let r11 ← elem 4
  let r12 ← elem 7
  let r20 ← elem 2
  let r21 ← elem 5
  let r22 ← elem 8
  pure { id := id, pos := { x := x, y := y, z := z },
         rotation := [[r00, r01, r02], [r10, r11, r12], [r20, r21, r22]] }

/-- The function `jsonify_tag` with bounds-checked indexing of `translation`. -/
def jsonify_tag {α : Type} (detection : nvAprilTagsID_t α) : Option (TagJson α) :=
  jsonify_tagM detection.id (fun k => detection.translation[k]?)

/-- The indices of `translation` that `jsonify_tag` reads, in order: the body is
run with a read that records its index. -/
def jsonify_tag_reads : List Nat :=
  ((jsonify_tagM 0 (fun k => modify (fun log => log ++ [k])) :
      StateM (List Nat) (TagJson Unit)).run []).2

/-- Entry `(r, c)` of a nested array, bounds-checked. -/
def entry {α : Type} (rows : List (List α)) (r c : Nat) : Option α :=
  match rows[r]? with
  | some row => row[c]?
  | none => none

/-! ## Machine integers and text -/

/-- Conversion of an `int` to `uint32_t`: reduction modulo `2^32`. -/
def toUInt32 (i : Int) : Nat := (i % 4294967296).toNat

/-- Reduction of an integer into the range of `int` (32 bits, two's complement). -/
def toInt32 (n : Int) : Int := (n + 2147483648) % 4294967296 - 2147483648

/-- Reduction of an integer into the range of a signed 64-bit integer, the
representation of `std::chrono::milliseconds`. -/
def toInt64 (n : Int) : Int :=
  (n + 9223372036854775808) % 18446744073709551616 - 9223372036854775808

/-- A `std::string` or a character buffer. -/
abbrev Text := List Char

/-- The terminator of a C string. -/
def NUL : Char := Char.ofNat 0

/-- The buffer `payload.c_str()` points to: the characters and the terminator. -/
def c_str (payload : Text) : Text := payload ++ [NUL]

/-- The count `strlen` returns: the characters before the first terminator. -/
def strlen (buf : Text) : Nat := (buf.takeWhile (fun c => c != NUL)).length

/-! ## The payload loop (lines 97 to 115) -/

/-- The read `impl_->tags[i]` with the `int` index `i`, bounds-checked. -/
def tagsAt {α : Type} (tags : List (nvAprilTagsID_t α)) (i : Int) : Option (nvAprilTagsID_t α) :=
  if 0 ≤ i then tags[i.toNat]? else none

/-- The `for` loop over the detections, from index `i` with the text built so
far. `dump` is `json::dump(4)` of the library, `tagAt` the read `impl_->tags[i]`.
The index is an `int`; both comparisons convert it to `uint32_t`, and
`num_detections - 1` is computed in `uint32_t`; the increment `i++` is reduced
into the range of `int`. The first argument bounds the number of passes; the
result is `none` when it is used up or a read fails. -/
def payloadLoop {α : Type} (dump : TagJson α → Text) (tagAt : Int → Option (nvAprilTagsID_t α))
    (num_detections : Nat) : Nat → Int → Text → Option Text
  | 0, _, _ => none
  | fuel + 1, i, payload =>
    if toUInt32 i < num_detections then
      match (tagAt i).bind jsonify_tag with
      | none => none
      | some j =>
        let payload := payload ++ dump j
        let payload :=
          if toUInt32 i < (num_detections + 4294967295) % 4294967296 then payload ++ [','] else payload
        payloadLoop dump tagAt num_detections fuel (toInt32 (i + 1)) payload
    else some payload

/-- The text `payload` after line 115: `"["`, the loop, `"]"`. -/
def buildPayload {α : Type} (dump : TagJson α → Text) (tagAt : Int → Option (nvAprilTagsID_t α))
    (num_detections : Nat) : Option Text :=
  (payloadLoop dump tagAt num_detections (num_detections + 1) 0 ['[']).map (fun p => p ++ [']'])

/-! ## The frame rate (line 126) -/

/-- The value `int(1000 / (count + 1))` for the millisecond count `count`: the
sum and the quotient are signed 64-bit, the quotient truncates, the result is
converted to `int`. A zero divisor has no value. -/
def fps (count : Int) : Option Int :=
  let divisor := toInt64 (count + 1)
  if divisor = 0 then none else some (toInt32 (Int.tdiv 1000 divisor))

/-! ## `main` -/

/-- The calls `main` makes on its collaborators, as far as they are observed. -/
inductive Event where
  | cout (text : String)
  | cerr_what
  | connect (ok : Bool)
  | VideoCapture (opened : Bool)
  | read (ok : Bool)
  | cvtColor (ok : Bool)
  | setup_vpi
  | impl_initialize (cols rows size step maxTags : Nat)
  | isOpened (answer : Bool)
  | undistort_frame
  | process_frame (num_detections : Nat)
  | publish (topic : String) (bytes : Text) (n : Nat)
  | putText (fps : Int)
  | delete_impl
deriving DecidableEq, Repr

/-- How a run ends: `main` returns a code, an exception nobody catches ends the
process, or the run has no defined behaviour (a read outside an array, a
division by zero). -/
inductive Exit where
  | returned (code : Int)
  | terminated
  | undefined
deriving DecidableEq, Repr

/-- The topic `TOPIC` of line 40. -/
def TOPIC : String := "vrc/apriltags/raw"

/-- The maximum number of tags passed to `impl_->initialize` on line 77. -/
def max_tags : Nat := 6

/-- Modelled from the spec: what the collaborators deliver during one pass of the
loop. `cv::VideoCapture`, `process_frame` and the clock are not part of the
sources at hand; per the spec a read yields a frame or not, and detection yields
a count with the tags in the detector's buffer. `elapsed` is the millisecond
count of `end - start`. -/
structure Step (α : Type) where
  frameOk : Bool
  num_detections : Nat
  tags : List (nvAprilTagsID_t α)
  elapsed : Int

/-- The detector's result can be encoded: the count respects the configured
maximum, the buffer holds that many detections, and each of them has the nine
translation components `jsonify_tag` reads. -/
def Step.batchOk {α : Type} (s : Step α) : Prop :=
  s.num_detections ≤ max_tags ∧ s.num_detections ≤ s.tags.length ∧
    ∀ d ∈ s.tags.take s.num_detections, 9 ≤ d.translation.length

/-- The millisecond count of the pass is a signed 64-bit value other than `-1`,
the one count for which the divisor `count + 1` of line 126 is zero. -/
def Step.clockOk {α : Type} (s : Step α) : Prop :=
  -9223372036854775808 ≤ s.elapsed ∧ s.elapsed < 9223372036854775808 ∧ s.elapsed ≠ -1

instance Step.decidableBatchOk {α : Type} (s : Step α) : Decidable s.batchOk := by
  unfold Step.batchOk; infer_instance

instance Step.decidableClockOk {α : Type} (s : Step α) : Decidable s.clockOk := by
  unfold Step.clockOk; infer_instance

/-- The events of a list that are `publish` calls. -/
def publishes (evs : List Event) : List Event :=
  evs.filter (fun e => match e with
    | .publish _ _ _ => true
    | _ => false)

/-- The events of a list that are `process_frame` calls. -/
def detectorCalls (evs : List Event) : List Event :=
  evs.filter (fun e => match e with
    | .process_frame _ => true
    | _ => false)

/-- The body of the `while` loop (lines 83 to 128) for one pass: the events, and
how the run ends if it ends in this pass. An empty frame makes the conversion
`cv::cvtColor` raise, which nothing catches. `undistort_frame`, `process_frame`,
`publish` and `putText` are taken to return normally. -/
def iteration {α : Type} (dump : TagJson α → Text) (s : Step α) : List Event × Option Exit :=
  if s.frameOk then
    let pre := [Event.read true, .undistort_frame, .cvtColor true, .process_frame s.num_detections]
    match buildPayload dump (tagsAt s.tags) s.num_detections with
    | none => (pre, some .undefined)
    | some payload =>
      let const_payload := c_str payload
      let n := strlen const_payload + 1
      let sent := if 0 < s.num_detections then [Event.publish TOPIC (const_payload.take n) n] else []
      match fps s.elapsed with
      | none => (pre ++ sent, some .undefined)
      | some f => (pre ++ sent ++ [.putText f], none)
  else ([Event.read false, .undistort_frame, .cvtColor false], some .terminated)

/-- The `while (capture.isOpened())` loop with what follows it (lines 80 to
135). The list holds one `Step` for each time `isOpened` answers true; after
them it answers false. -/
def mainLoop {α : Type} (dump : TagJson α → Text) : List (Step α) → List Event × Exit
  | [] => ([Event.isOpened false, .delete_impl], .returned 0)
  | s :: rest =>
    match iteration dump s with
    | (evs, some ex) => (Event.isOpened true :: evs, ex)
    | (evs, none) =>
      let r := mainLoop dump rest
      (Event.isOpened true :: evs ++ r.1, r.2)

/-- The geometry of the first converted image `img_rgba8`. -/
structure Geometry where
  cols : Nat
  rows : Nat
  total : Nat
  elemSize : Nat
  step : Nat
deriving DecidableEq, Repr

/-- Modelled from the spec: what the collaborators deliver over a whole run. The
broker client and the capture backend are not part of the sources at hand; per
the spec `connect` and `open` succeed or fail. `firstFrame` is what the read of
line 67 delivers from an opened capture. -/
structure World (α : Type) where
  connectOk : Bool
  captureOpened : Bool
  firstFrame : Option Geometry
  steps : List (Step α)

/-- The function `main`: the events of the run and how it ends. The constructor
of `cv::VideoCapture` does not raise when the device fails to open; the read of
line 67 then leaves `frame` empty and `cv::cvtColor` raises on it, which nothing
catches. `impl_initialize` stands for the call `impl_->initialize`. -/
def main {α : Type} (dump : TagJson α → Text) (w : World α) : List Event × Exit :=
  if w.connectOk then
    let frame := if w.captureOpened then w.firstFrame else none
    let setup := [Event.cout "\nConnecting...", .connect true, .cout "...OK",
      .VideoCapture w.captureOpened, .cout "made it past cap device", .read frame.isSome]
    match frame with
    | none => (setup ++ [.cvtColor false], .terminated)
    | some g =>
      let r := mainLoop dump w.steps
      (setup ++ [.cvtColor true, .setup_vpi,
        Event.impl_initialize g.cols g.rows (g.total * g.elemSize) g.step max_tags] ++ r.1, r.2)
  else ([Event.cout "\nConnecting...", .connect false, .cerr_what], .returned 1)

/-! ## Sample inputs -/

/-- A detection with nine translation components and the identity as rotation. -/
def sampleTag : nvAprilTagsID_t Int :=
  { id := 7, translation := [1, 2, 3, 4, 5, 6, 7, 8, 9],
    orientation := [[1, 0, 0], [0, 1, 0], [0, 0, 1]] }

/-- A detection whose translation has the three components `x`, `y`, `z` only. -/
def shortTag : nvAprilTagsID_t Int :=
  { id := 7, translation := [1, 2, 3], orientation := [[1, 0, 0], [0, 1, 0], [0, 0, 1]] }

/-- The record `jsonify_tag` builds for `sampleTag`. -/
def sampleRecord : TagJson Int :=
  { id := 7, pos := { x := 1, y := 2, z := 3 },
    rotation := [[1, 4, 7], [2, 5, 8], [3, 6, 9]] }

/-- A stand-in for `json::dump`: the identifier as one letter between braces. -/
def sampleDump (j : TagJson Int) : Text :=
  ['\x7b', if j.id = 7 then 'A' else 'B', '\x7d']

/-- Three passes of the loop with the batches `[]`, `[sampleTag]`, `[]`. -/
def sampleSteps : List (Step Int) :=
  [ { frameOk := true, num_detections := 0, tags := [], elapsed := 0 },
    { frameOk := true, num_detections := 1, tags := [sampleTag], elapsed := 3 },
    { frameOk := true, num_detections := 0, tags := [], elapsed := 999 } ]

/-- The three passes of `sampleSteps`, then a pass whose read delivers no frame
while `isOpened` still answers true. -/
def closedReadSteps : List (Step Int) :=
  sampleSteps ++ [{ frameOk := false, num_detections := 0, tags := [], elapsed := 0 }]

/-- One pass with a frame and an empty batch, during which the clock is set back
so that `end - start` is `-1` millisecond; `isOpened` answers false after it. -/
def backwardsClockSteps : List (Step Int) :=
  [{ frameOk := true, num_detections := 0, tags := [], elapsed := -1 }]

/-- A pass with the batch `[sampleTag]`. -/
def sampleStep : Step Int :=
  { frameOk := true, num_detections := 1, tags := [sampleTag], elapsed := 3 }

/-- A pass with an empty batch. -/
def emptyStep : Step Int :=
  { frameOk := true, num_detections := 0, tags := [], elapsed := 0 }

/-- The geometry of a 1280 by 720 RGBA image. -/
def sampleGeometry : Geometry :=
  { cols := 1280, rows := 720, total := 921600, elemSize := 4, step := 5120 }

/-- A run in which every collaborator works and the capture delivers the frames
of `sampleSteps` to the loop. -/
def sampleWorld : World Int :=
  { connectOk := true, captureOpened := true, firstFrame := some sampleGeometry,
    steps := sampleSteps }

/-- A run in which the capture backend fails to open. -/
def noCameraWorld : World Int :=
  { connectOk := true, captureOpened := false, firstFrame := none, steps := sampleSteps }

/-- A run in which the broker refuses the connection. -/
def noBrokerWorld : World Int :=
  { connectOk := false, captureOpened := true, firstFrame := some sampleGeometry,
    steps := sampleSteps }

/-- The read `impl_->tags[i]` on a buffer holding two copies of `sampleTag`. -/
def sampleTagAt (i : Int) : Option (nvAprilTagsID_t Int) :=
  if 0 ≤ i ∧ i < 2 then some sampleTag else none

/-! ## Lemmas on the machine integers and on text -/

theorem toUInt32_toInt32 (k : Nat) (h : k < 4294967296) : toUInt32 (toInt32 k) = k := by
  unfold toUInt32 toInt32; omega

theorem toInt32_succ (k : Nat) : toInt32 (toInt32 k + 1) = toInt32 ((k + 1 : Nat) : Int) := by
  unfold toInt32; omega

theorem toInt32_small (k : Nat) (h : k < 2147483648) : toInt32 k = k := by
  unfold toInt32; omega

theorem intercalate_cons_cons {β : Type} (sep a b : List β) (l : List (List β)) :
    List.intercalate sep (a :: b :: l) = a ++ sep ++ List.intercalate sep (b :: l) := by
  simp [List.intercalate]

theorem mem_intercalate {β : Type} (sep : List β) (c : β) :
    ∀ l : List (List β), c ∈ List.intercalate sep l → c ∈ sep ∨ ∃ x ∈ l, c ∈ x
  | [] => by simp [List.intercalate]
  | [a] => by
    intro h
    exact Or.inr ⟨a, by simp, by simpa [List.intercalate] using h⟩
  | a :: b :: l => by
    rw [intercalate_cons_cons]
    intro h
    rcases List.mem_append.mp h with h | h
    · rcases List.mem_append.mp h with h | h
      · exact Or.inr ⟨a, by simp, h⟩
      · exact Or.inl h
    · rcases mem_intercalate sep c (b :: l) h with h | ⟨x, hx, hc⟩
      · exact Or.inl h
      · exact Or.inr ⟨x, List.mem_cons_of_mem _ hx, hc⟩

theorem strlen_c_str (payload : Text) (h : NUL ∉ payload) :
    strlen (c_str payload) = payload.length := by
  unfold strlen c_str
  induction payload with
  | nil => simp [List.takeWhile]
  | cons c rest ih =>
    have hc : c ≠ NUL := fun hc => h (by simp [hc])
    have hr : NUL ∉ rest := fun hr => h (List.mem_cons_of_mem _ hr)
    have hb : (c != NUL) = true := by simpa using hc
    rw [List.cons_append, List.takeWhile_cons, hb]
    simp [ih hr]

/-! ## Lemmas on the payload loop -/

theorem payloadLoop_records {α : Type} (dump : TagJson α → Text)
    (tagAt : Int → Option (nvAprilTagsID_t α)) (N : Nat) (hN : N < 4294967296)
    (todo : List (TagJson α)) :
    ∀ (k fuel : Nat) (acc : Text), k + todo.length = N → todo.length < fuel →
      (∀ m, m < todo.length → (tagAt (toInt32 ((k + m : Nat) : Int))).bind jsonify_tag = todo[m]?) →
      payloadLoop dump tagAt N fuel (toInt32 (k : Int)) acc
        = some (acc ++ List.intercalate [','] (todo.map dump)) := by
  induction todo with
  | nil =>
    intro k fuel acc hk hf _
    obtain ⟨f, rfl⟩ : ∃ f, fuel = f + 1 := ⟨fuel - 1, by simp at hf; omega⟩
    have hu : toUInt32 (toInt32 (k : Int)) = k := toUInt32_toInt32 k (by simp at hk; omega)
    simp only [List.length_nil, Nat.add_zero] at hk
    subst hk
    rw [payloadLoop, hu, if_neg (Nat.lt_irrefl _)]
    simp [List.intercalate]
  | cons r rest ih =>
    intro k fuel acc hk hf hrec
    obtain ⟨f, rfl⟩ : ∃ f, fuel = f + 1 := ⟨fuel - 1, by simp at hf; omega⟩
    simp only [List.length_cons] at hk hf
    have hu : toUInt32 (toInt32 (k : Int)) = k := toUInt32_toInt32 k (by omega)
    have h0 := hrec 0 (by simp)
    simp only [Nat.add_zero, List.getElem?_cons_zero] at h0
    have hnext := ih (k + 1) f
      (if k < (N + 4294967295) % 4294967296 then acc ++ dump r ++ [','] else acc ++ dump r)
      (by omega) (by omega)
      (fun m hm => by
        have := hrec (m + 1) (by simp; omega)
        simpa [Nat.add_assoc, Nat.add_comm 1 m] using this)
    have hlt : k < N := by omega
    rw [payloadLoop, hu, if_pos hlt, h0]
    simp only []
    rw [toInt32_succ, hnext]
    have hsep : (k < (N + 4294967295) % 4294967296) ↔ rest ≠ [] := by
      constructor
      · intro h hr; rw [hr] at hk; simp at hk; omega
      · intro h
        have : rest.length ≠ 0 := fun h0 => h (List.length_eq_zero.mp h0)
        omega
    cases rest with
    | nil => simp [hsep, List.intercalate]
    | cons r2 rest2 =>
      rw [if_pos (hsep.mpr (by simp))]
      simp [intercalate_cons_cons]

theorem buildPayload_records {α : Type} (dump : TagJson α → Text)
    (tagAt : Int → Option (nvAprilTagsID_t α)) (N : Nat) (recs : List (TagJson α))
    (hN : N < 4294967296) (hlen : recs.length = N)
    (hrec : ∀ m, m < N → (tagAt (toInt32 (m : Int))).bind jsonify_tag = recs[m]?) :
    buildPayload dump tagAt N
      = some (['['] ++ List.intercalate [','] (recs.map dump) ++ [']']) := by
  have h := payloadLoop_records dump tagAt N hN recs 0 (N + 1) ['['] (by omega) (by omega)
    (fun m hm => by simpa using hrec m (by omega))
  have h0 : toInt32 ((0 : Nat) : Int) = 0 := by decide
  rw [h0] at h
  simp [buildPayload, h]

theorem jsonify_tag_isSome {α : Type} (d : nvAprilTagsID_t α) :
    (jsonify_tag d).isSome = true ↔ 9 ≤ d.translation.length := by
  rcases d with ⟨i, t, o⟩
  rcases t with _ | ⟨a0, _ | ⟨a1, _ | ⟨a2, _ | ⟨a3, _ | ⟨a4, _ | ⟨a5, _ | ⟨a6, _ | ⟨a7, _ | ⟨a8, t⟩⟩⟩⟩⟩⟩⟩⟩⟩ <;>
    simp [jsonify_tag, jsonify_tagM]

theorem exists_records {α : Type} :
    ∀ l : List (nvAprilTagsID_t α), (∀ d ∈ l, 9 ≤ d.translation.length) →
      ∃ recs : List (TagJson α), recs.length = l.length ∧
        ∀ m, m < l.length → (l[m]?).bind jsonify_tag = recs[m]?
  | [], _ => ⟨[], rfl, fun m hm => by simp at hm⟩
  | d :: l, h => by
    obtain ⟨recs, hlen, hrec⟩ := exists_records l (fun x hx => h x (List.mem_cons_of_mem _ hx))
    obtain ⟨j, hj⟩ := Option.isSome_iff_exists.mp ((jsonify_tag_isSome d).mpr (h d (by simp)))
    refine ⟨j :: recs, by simp [hlen], fun m hm => ?_⟩
    cases m with
    | zero => simp [hj]
    | succ m => simpa using hrec m (by simpa using hm)

theorem tagsAt_toInt32 {α : Type} (tags : List (nvAprilTagsID_t α)) (m : Nat)
    (h : m < 2147483648) : tagsAt tags (toInt32 (m : Int)) = tags[m]? := by
  rw [toInt32_small m h]
  simp [tagsAt]

/-- The loop over a tag buffer: when the buffer holds `N` detections with nine
translation components each, the text is defined and contains the records of
the first `N` detections, in order. -/
theorem buildPayload_tags {α : Type} (dump : TagJson α → Text) (tags : List (nvAprilTagsID_t α))
    (N : Nat) (hN : N ≤ 2147483648) (hlen : N ≤ tags.length)
    (h9 : ∀ d ∈ tags.take N, 9 ≤ d.translation.length) :
    ∃ recs : List (TagJson α), recs.length = N ∧
      (∀ m, m < N → (tags[m]?).bind jsonify_tag = recs[m]?) ∧
      buildPayload dump (tagsAt tags) N
        = some (['['] ++ List.intercalate [','] (recs.map dump) ++ [']']) := by
  obtain ⟨recs, hl, hrec⟩ := exists_records (tags.take N) h9
  have hl2 : recs.length = N := by rw [hl, List.length_take]; omega
  have hrec2 : ∀ m, m < N → (tags[m]?).bind jsonify_tag = recs[m]? := fun m hm => by
    have := hrec m (by rw [List.length_take]; omega)
    rwa [List.getElem?_take_of_lt hm] at this
  refine ⟨recs, hl2, hrec2, ?_⟩
  apply buildPayload_records dump (tagsAt tags) N recs (by omega) hl2
  intro m hm
  rw [tagsAt_toInt32 tags m (by omega)]
  exact hrec2 m hm

theorem buildPayload_zero {α : Type} (dump : TagJson α → Text)
    (tagAt : Int → Option (nvAprilTagsID_t α)) : buildPayload dump tagAt 0 = some ['[', ']'] := by
  have h : toUInt32 0 = 0 := by decide
  simp [buildPayload, payloadLoop, h]

theorem not_mem_payload {α : Type} (dump : TagJson α → Text) (recs : List (TagJson α))
    (hdump : ∀ j, NUL ∉ dump j) :
    NUL ∉ ['['] ++ List.intercalate [','] (recs.map dump) ++ [']'] := by
  intro h
  simp only [List.mem_append, List.mem_singleton] at h
  rcases h with (h | h) | h
  · exact absurd h (by decide)
  · rcases mem_intercalate _ _ _ h with h | ⟨x, hx, hc⟩
    · exact absurd (List.mem_singleton.mp h) (by decide)
    · obtain ⟨j, _, rfl⟩ := List.mem_map.mp hx
      exact hdump j hc
  · exact absurd h (by decide)

theorem take_c_str (payload : Text) (h : NUL ∉ payload) :
    (c_str payload).take (strlen (c_str payload) + 1) = payload ++ [NUL] := by
  rw [strlen_c_str payload h]
  simp [c_str]

theorem length_intersperse_sep {β : Type} (sep : β) :
    ∀ l : List β, (l.intersperse sep).length = l.length + (l.length - 1)
  | [] => rfl
  | [a] => rfl
  | a :: b :: l => by
    have := length_intersperse_sep sep (b :: l)
    simp only [List.intersperse_cons₂, List.length_cons] at this ⊢
    omega

theorem sampleDump_no_NUL (j : TagJson Int) : NUL ∉ sampleDump j := by
  unfold sampleDump
  by_cases h : j.id = 7 <;> simp [h] <;> decide

/-! ## Lemmas on the frame rate and on one pass of the loop -/

theorem fps_of_nonneg (e : Int) (h0 : 0 ≤ e) (h1 : e < 9223372036854775808) :
    fps e = some (1000 / (e + 1)) := by
  have hq := Int.tdiv_eq_ediv (a := 1000) (b := e + 1) (by norm_num) (by omega)
  by_cases hmax : e = 9223372036854775807
  · rw [hmax]; decide
  · have hd : toInt64 (e + 1) = e + 1 := by unfold toInt64; omega
    have hnn : 0 ≤ (1000 : Int) / (e + 1) := Int.ediv_nonneg (by norm_num) (by omega)
    have hle : (1000 : Int) / (e + 1) ≤ 1000 := Int.ediv_le_self _ (by norm_num)
    unfold fps
    simp only [hd, hq]
    rw [if_neg (by omega)]
    congr 1
    unfold toInt32; omega

theorem fps_isSome (e : Int) (h0 : -9223372036854775808 ≤ e) (h1 : e < 9223372036854775808)
    (h2 : e ≠ -1) : ∃ f, fps e = some f := by
  have hd : toInt64 (e + 1) ≠ 0 := by unfold toInt64; omega
  exact ⟨_, by unfold fps; simp only []; rw [if_neg hd]⟩

theorem iteration_ok {α : Type} (dump : TagJson α → Text) (s : Step α)
    (hf : s.frameOk = true) (hb : s.batchOk) (hc : s.clockOk) :
    ∃ evs, iteration dump s = (evs, none) ∧ Event.isOpened false ∉ evs ∧
      (publishes evs).length = (if 0 < s.num_detections then 1 else 0) ∧
      (detectorCalls evs).length = 1 := by
  obtain ⟨recs, _, _, hp⟩ := buildPayload_tags dump s.tags s.num_detections
    (le_trans hb.1 (by decide)) hb.2.1 hb.2.2
  obtain ⟨f, hfps⟩ := fps_isSome s.elapsed hc.1 hc.2.1 hc.2.2
  unfold iteration
  rw [hf, hp, hfps]
  by_cases hpos : 0 < s.num_detections <;> simp [publishes, detectorCalls, hpos]

/-! ## The claims -/

/-- C1: in one pass of the loop `publish` is called exactly once, on the topic
`vrc/apriltags/raw`, when the detector reports a count above zero (the frame
was read and the batch can be encoded), and not at all when the count is zero;
in no pass is it called more than once. -/
theorem iteration_publish_once {α : Type} (dump : TagJson α → Text) (s : Step α) :
    (s.num_detections = 0 → publishes (iteration dump s).1 = []) ∧
    (s.frameOk = true → s.batchOk → 0 < s.num_detections →
      ∃ bytes n, publishes (iteration dump s).1 = [Event.publish "vrc/apriltags/raw" bytes n]) ∧
    (publishes (iteration dump s).1).length ≤ 1 := by
  refine ⟨?_, ?_, ?_⟩
  · intro h0
    unfold iteration
    rw [h0, buildPayload_zero]
    cases s.frameOk <;> cases fps s.elapsed <;> simp [publishes]
  · intro hf hb hpos
    obtain ⟨recs, _, _, hp⟩ := buildPayload_tags dump s.tags s.num_detections
      (le_trans hb.1 (by decide)) hb.2.1 hb.2.2
    unfold iteration
    rw [hf, hp]
    cases fps s.elapsed <;> simp [publishes, hpos, TOPIC]
  · unfold iteration
    cases s.frameOk <;> cases buildPayload dump (tagsAt s.tags) s.num_detections <;>
      cases fps s.elapsed <;> by_cases hpos : 0 < s.num_detections <;>
      simp [publishes, hpos]

/-- Witness of C1: an empty batch publishes nothing, the batch `[sampleTag]`
publishes once. -/
theorem iteration_publish_once_witness :
    emptyStep.num_detections = 0 ∧ publishes (iteration sampleDump emptyStep).1 = [] ∧
    sampleStep.frameOk = true ∧ sampleStep.batchOk ∧ 0 < sampleStep.num_detections ∧
    ∃ bytes n, publishes (iteration sampleDump sampleStep).1
      = [Event.publish "vrc/apriltags/raw" bytes n] :=
  ⟨rfl, (iteration_publish_once sampleDump emptyStep).1 rfl, rfl, by decide, by decide,
    (iteration_publish_once sampleDump sampleStep).2.1 rfl (by decide) (by decide)⟩

/-- C2 (evaluation at the failing input): for the detection `sampleTag`, whose
rotation is the identity, the record built by `jsonify_tag` and encoded by the
loop has the rotation `[[1,4,7],[2,5,8],[3,6,9]]`, taken from the translation
array; the detection's rotation is never read, and with a three-component
translation the reads leave the array. -/
theorem rotation_from_translation :
    jsonify_tag sampleTag = some sampleRecord ∧
      sampleRecord.rotation = [[1, 4, 7], [2, 5, 8], [3, 6, 9]] ∧
      sampleTag.orientation = [[1, 0, 0], [0, 1, 0], [0, 0, 1]] ∧
      sampleRecord.rotation ≠ sampleTag.orientation ∧
      buildPayload sampleDump (tagsAt [sampleTag]) 1 = some (['['] ++ sampleDump sampleRecord ++ [']']) ∧
      (∀ (d : nvAprilTagsID_t Int) (o : List (List Int)),
        jsonify_tag { d with orientation := o } = jsonify_tag d) ∧
      jsonify_tag shortTag = none :=
  ⟨by decide, rfl, rfl, by decide, by decide, fun _ _ => rfl, by decide⟩

/-- C3: for a detection whose translation has nine components, `jsonify_tag`
yields the detection's id, the position `x = t[0]`, `y = t[1]`, `z = t[2]` and a
3 by 3 rotation with `rotation[r][c] = t[r + 3 * c]`; the translation
`[1,...,9]` yields `[[1,4,7],[2,5,8],[3,6,9]]` and the position `(1, 2, 3)`. -/
theorem jsonify_tag_layout {α : Type} (d : nvAprilTagsID_t α) (h : d.translation.length = 9) :
    (∃ j, jsonify_tag d = some j ∧ j.id = d.id ∧
      some j.pos.x = d.translation[0]? ∧ some j.pos.y = d.translation[1]? ∧
      some j.pos.z = d.translation[2]? ∧
      j.rotation.length = 3 ∧ (∀ row ∈ j.rotation, row.length = 3) ∧
      ∀ r c, r < 3 → c < 3 → entry j.rotation r c = d.translation[r + 3 * c]?) ∧
    ∀ (i : Int) (o : List (List Int)),
      jsonify_tag { id := i, translation := [1, 2, 3, 4, 5, 6, 7, 8, 9], orientation := o }
        = some { id := i, pos := { x := 1, y := 2, z := 3 },
                 rotation := [[1, 4, 7], [2, 5, 8], [3, 6, 9]] } := by
  refine ⟨?_, fun _ _ => rfl⟩
  rcases d with ⟨i, t, o⟩
  rcases t with _ | ⟨a0, _ | ⟨a1, _ | ⟨a2, _ | ⟨a3, _ | ⟨a4, _ | ⟨a5, _ | ⟨a6, _ | ⟨a7, _ | ⟨a8, _ | ⟨a9, t⟩⟩⟩⟩⟩⟩⟩⟩⟩⟩ <;>
    simp at h
  refine ⟨_, rfl, rfl, rfl, rfl, rfl, rfl, ?_, ?_⟩
  · intro row hrow
    simp at hrow
    rcases hrow with rfl | rfl | rfl <;> rfl
  · intro r c hr hc
    interval_cases r <;> interval_cases c <;> rfl

/-- Witness of C3 at `sampleTag`. -/
theorem jsonify_tag_layout_witness :
    sampleTag.translation.length = 9 ∧
    ∃ j, jsonify_tag sampleTag = some j ∧ j.id = sampleTag.id ∧
      some j.pos.x = sampleTag.translation[0]? ∧ some j.pos.y = sampleTag.translation[1]? ∧
      some j.pos.z = sampleTag.translation[2]? ∧
      j.rotation.length = 3 ∧ (∀ row ∈ j.rotation, row.length = 3) ∧
      ∀ r c, r < 3 → c < 3 → entry j.rotation r c = sampleTag.translation[r + 3 * c]? :=
  ⟨rfl, (jsonify_tag_layout sampleTag rfl).1⟩

/-- C4: for an elapsed count `e ≥ 0` of milliseconds (a signed 64-bit value)
the divisor `e + 1` is not zero, the quotient fits in `int`, and the frame rate
is `floor(1000 / (e + 1))`; the counts 0, 999 and 1000 give 1000, 1 and 0. -/
theorem fps_floor (e : Int) (h0 : 0 ≤ e) (h1 : e < 9223372036854775808) :
    toInt64 (e + 1) ≠ 0 ∧
    (-2147483648 ≤ Int.tdiv 1000 (toInt64 (e + 1)) ∧ Int.tdiv 1000 (toInt64 (e + 1)) < 2147483648) ∧
    fps e = some (1000 / (e + 1)) ∧ fps e = some ⌊(1000 : ℚ) / ((e : ℚ) + 1)⌋ ∧
    fps 0 = some 1000 ∧ fps 999 = some 1 ∧ fps 1000 = some 0 := by
  have hq : (1000 : Int) / (e + 1) = ⌊(1000 : ℚ) / ((e : ℚ) + 1)⌋ := by
    have := Rat.floor_intCast_div_natCast 1000 (e.toNat + 1)
    have he : ((e.toNat : Int)) = e := Int.toNat_of_nonneg h0
    push_cast at this
    rw [← he]
    push_cast
    exact this.symm
  rw [← hq]
  have hf := fps_of_nonneg e h0 h1
  refine ⟨?_, ?_, hf, hf, by decide, by decide, by decide⟩
  · by_cases hmax : e = 9223372036854775807
    · subst hmax; decide
    · unfold toInt64; omega
  · by_cases hmax : e = 9223372036854775807
    · subst hmax; decide
    · have hd : toInt64 (e + 1) = e + 1 := by unfold toInt64; omega
      have ht : Int.tdiv 1000 (e + 1) = 1000 / (e + 1) :=
        Int.tdiv_eq_ediv (by norm_num) (by omega)
      have hnn : 0 ≤ (1000 : Int) / (e + 1) := Int.ediv_nonneg (by norm_num) (by omega)
      have hle : (1000 : Int) / (e + 1) ≤ 1000 := Int.ediv_le_self _ (by norm_num)
      rw [hd, ht]; omega

/-- Witness of C4 at 249 milliseconds: the frame rate is 4. -/
theorem fps_floor_witness :
    (0 : Int) ≤ 249 ∧ (249 : Int) < 9223372036854775808 ∧ fps 249 = some 4 :=
  ⟨by decide, by decide, (fps_floor 249 (by decide) (by decide)).2.2.1⟩

/-- C5: for a non-empty batch, when the dumped records hold no null character,
the bytes handed to `publish` are the payload text followed by one null
character, the length passed is the length of the text plus one, and `strlen`
of the payload is its full length. -/
theorem publish_framing {α : Type} (dump : TagJson α → Text) (s : Step α)
    (hdump : ∀ j, NUL ∉ dump j) (hf : s.frameOk = true) (hb : s.batchOk)
    (hpos : 0 < s.num_detections) :
    ∃ payload, buildPayload dump (tagsAt s.tags) s.num_detections = some payload ∧
      NUL ∉ payload ∧ strlen (c_str payload) = payload.length ∧
      publishes (iteration dump s).1
        = [Event.publish TOPIC (payload ++ [NUL]) (payload.length + 1)] := by
  obtain ⟨recs, _, _, hp⟩ := buildPayload_tags dump s.tags s.num_detections
    (le_trans hb.1 (by decide)) hb.2.1 hb.2.2
  have hn := not_mem_payload dump recs hdump
  refine ⟨_, hp, hn, strlen_c_str _ hn, ?_⟩
  unfold iteration
  rw [hf, hp]
  simp only [if_true]
  rw [take_c_str _ hn, strlen_c_str _ hn]
  cases fps s.elapsed <;> simp [publishes, hpos]

/-- Witness of C5 at the batch `[sampleTag]`. -/
theorem publish_framing_witness :
    (∀ j, NUL ∉ sampleDump j) ∧ sampleStep.frameOk = true ∧ sampleStep.batchOk ∧
    0 < sampleStep.num_detections ∧
    ∃ payload, buildPayload sampleDump (tagsAt sampleStep.tags) sampleStep.num_detections
        = some payload ∧
      NUL ∉ payload ∧ strlen (c_str payload) = payload.length ∧
      publishes (iteration sampleDump sampleStep).1
        = [Event.publish TOPIC (payload ++ [NUL]) (payload.length + 1)] :=
  ⟨sampleDump_no_NUL, rfl, by decide, by decide,
    publish_framing sampleDump sampleStep sampleDump_no_NUL rfl (by decide) (by decide)⟩

/-- C6 (counterexample): a capture that delivers three frames and then reports
closure through a read, `isOpened` still answering true, does not end the loop
cleanly: the result of the read is not inspected, the empty frame goes on to the
conversion, and the run ends by the uncaught exception, without `delete impl_`
and without `return 0`. Nor does a capture that delivers one frame and then has
`isOpened` answer false, when `end - start` is `-1` millisecond in that pass:
line 126 divides by zero and `main` does not return. -/
theorem closed_read_not_clean :
    mainLoop sampleDump closedReadSteps
      = ([Event.isOpened true, Event.read true, Event.undistort_frame, Event.cvtColor true,
          Event.process_frame 0, Event.putText 1000,
          Event.isOpened true, Event.read true, Event.undistort_frame, Event.cvtColor true,
          Event.process_frame 1,
          Event.publish "vrc/apriltags/raw" ['[', '\x7b', 'A', '\x7d', ']', NUL] 6,
          Event.putText 250,
          Event.isOpened true, Event.read true, Event.undistort_frame, Event.cvtColor true,
          Event.process_frame 0, Event.putText 1,
          Event.isOpened true, Event.read false, Event.undistort_frame, Event.cvtColor false],
        Exit.terminated) ∧
    (mainLoop sampleDump closedReadSteps).2 ≠ Exit.returned 0 ∧
    Event.delete_impl ∉ (mainLoop sampleDump closedReadSteps).1 ∧
    fps (-1) = none ∧
    mainLoop sampleDump backwardsClockSteps
      = ([Event.isOpened true, Event.read true, Event.undistort_frame, Event.cvtColor true,
          Event.process_frame 0], Exit.undefined) ∧
    (mainLoop sampleDump backwardsClockSteps).2 ≠ Exit.returned 0 :=
  ⟨by decide, by decide, by decide, by decide, by decide, by decide⟩

/-- C6 (amended): when the capture delivers finitely many frames and then
`isOpened` answers false at the head of the loop, and in every pass the batch
can be encoded (a count of at most 6, that many detections in the buffer, each
with the nine translation components `jsonify_tag` reads) and the millisecond
count `end - start` is a signed 64-bit value other than `-1`, the loop ends with
`delete impl_` and `return 0`; nothing is read, detected or published after that
answer, detection ran once per frame, and the number of `publish` calls is the
number of frames with a non-empty batch. -/
theorem mainLoop_closure {α : Type} (dump : TagJson α → Text) (steps : List (Step α))
    (h : ∀ s ∈ steps, s.frameOk = true ∧ s.batchOk ∧ s.clockOk) :
    ∃ body, mainLoop dump steps
        = (body ++ [Event.isOpened false, Event.delete_impl], Exit.returned 0) ∧
      Event.isOpened false ∉ body ∧
      (detectorCalls body).length = steps.length ∧
      (publishes body).length = steps.countP (fun s => decide (0 < s.num_detections)) := by
  induction steps with
  | nil => exact ⟨[], rfl, by simp, rfl, rfl⟩
  | cons s rest ih =>
    obtain ⟨body, hb, hno, hd, hpub⟩ := ih (fun x hx => h x (List.mem_cons_of_mem _ hx))
    obtain ⟨hf, hbt, hc⟩ := h s (by simp)
    obtain ⟨evs, hit, hno2, hp2, hd2⟩ := iteration_ok dump s hf hbt hc
    refine ⟨Event.isOpened true :: evs ++ body, ?_, ?_, ?_, ?_⟩
    · simp [mainLoop, hit, hb]
    · simp [hno, hno2]
    · simp only [detectorCalls] at hd hd2 ⊢
      simp [List.filter_append, List.filter_cons, hd, hd2]
      omega
    · simp only [publishes] at hpub hp2 ⊢
      simp [List.filter_append, List.filter_cons, hpub, hp2, List.countP_cons]
      omega

/-- Witness of C6 (amended): three frames with the batches `[]`, `[sampleTag]`, `[]` give
one `publish` call, in the second pass, and the loop ends with `return 0`. -/
theorem mainLoop_closure_witness :
    (∀ s ∈ sampleSteps, s.frameOk = true ∧ s.batchOk ∧ s.clockOk) ∧
    mainLoop sampleDump sampleSteps
      = ([Event.isOpened true, Event.read true, Event.undistort_frame, Event.cvtColor true,
          Event.process_frame 0, Event.putText 1000,
          Event.isOpened true, Event.read true, Event.undistort_frame, Event.cvtColor true,
          Event.process_frame 1,
          Event.publish "vrc/apriltags/raw" ['[', '\x7b', 'A', '\x7d', ']', NUL] 6,
          Event.putText 250,
          Event.isOpened true, Event.read true, Event.undistort_frame, Event.cvtColor true,
          Event.process_frame 0, Event.putText 1,
          Event.isOpened false, Event.delete_impl], Exit.returned 0) ∧
    ∃ body, mainLoop sampleDump sampleSteps
        = (body ++ [Event.isOpened false, Event.delete_impl], Exit.returned 0) ∧
      Event.isOpened false ∉ body ∧
      (detectorCalls body).length = sampleSteps.length ∧
      (publishes body).length = sampleSteps.countP (fun s => decide (0 < s.num_detections)) :=
  ⟨by decide, by decide, mainLoop_closure sampleDump sampleSteps (by decide)⟩

/-- C7: start-up connects to the broker, then opens the capture, then binds the
detector; when the capture fails to open, the run ends by an uncaught exception
before the detector is bound: no `initialize` call, no pass of the loop and no
`publish` occur. -/
theorem main_capture_failure {α : Type} (dump : TagJson α → Text) (w : World α)
    (hc : w.connectOk = true) :
    (w.captureOpened = false →
      main dump w = ([Event.cout "\nConnecting...", Event.connect true, Event.cout "...OK",
          Event.VideoCapture false, Event.cout "made it past cap device", Event.read false,
          Event.cvtColor false], Exit.terminated) ∧
      (∀ c r sz st mt, Event.impl_initialize c r sz st mt ∉ (main dump w).1) ∧
      (∀ b, Event.isOpened b ∉ (main dump w).1) ∧
      publishes (main dump w).1 = []) ∧
    (∀ g, w.captureOpened = true → w.firstFrame = some g →
      (main dump w).1 = [Event.cout "\nConnecting...", Event.connect true, Event.cout "...OK",
          Event.VideoCapture true, Event.cout "made it past cap device", Event.read true,
          Event.cvtColor true, Event.setup_vpi,
          Event.impl_initialize g.cols g.rows (g.total * g.elemSize) g.step 6]
        ++ (mainLoop dump w.steps).1) := by
  constructor
  · intro ho
    have hm : main dump w = ([Event.cout "\nConnecting...", Event.connect true,
        Event.cout "...OK", Event.VideoCapture false, Event.cout "made it past cap device",
        Event.read false, Event.cvtColor false], Exit.terminated) := by
      simp [main, hc, ho]
    rw [hm]
    refine ⟨rfl, ?_, ?_, ?_⟩
    · intro c r sz st mt; simp
    · intro b; simp
    · simp [publishes]
  · intro g ho hg
    simp [main, hc, ho, hg, max_tags]

/-- Witness of C7: the run of `noCameraWorld` ends by the exception, the run of
`sampleWorld` binds the detector after the capture is opened. -/
theorem main_capture_failure_witness :
    noCameraWorld.connectOk = true ∧ noCameraWorld.captureOpened = false ∧
    (main sampleDump noCameraWorld).2 = Exit.terminated ∧
    publishes (main sampleDump noCameraWorld).1 = [] ∧
    (main sampleDump sampleWorld).1
      = [Event.cout "\nConnecting...", Event.connect true, Event.cout "...OK",
          Event.VideoCapture true, Event.cout "made it past cap device", Event.read true,
          Event.cvtColor true, Event.setup_vpi, Event.impl_initialize 1280 720 3686400 5120 6]
        ++ (mainLoop sampleDump sampleSteps).1 :=
  ⟨rfl, rfl,
    congrArg Prod.snd ((main_capture_failure sampleDump noCameraWorld rfl).1 rfl).1,
    ((main_capture_failure sampleDump noCameraWorld rfl).1 rfl).2.2.2,
    (main_capture_failure sampleDump sampleWorld rfl).2 sampleGeometry rfl rfl⟩

/-- C8: when `client.connect` raises, `main` writes the diagnostic and returns
1 after a single connection attempt; the capture is not opened, the detector is
not bound, the loop is not entered and nothing is published. When it succeeds,
`main` goes on to open the capture. -/
theorem main_connect_failure {α : Type} (dump : TagJson α → Text) (w : World α) :
    (w.connectOk = false →
      main dump w = ([Event.cout "\nConnecting...", Event.connect false, Event.cerr_what],
        Exit.returned 1)) ∧
    (w.connectOk = true →
      ∃ rest, (main dump w).1 = [Event.cout "\nConnecting...", Event.connect true,
        Event.cout "...OK", Event.VideoCapture w.captureOpened] ++ rest) := by
  constructor
  · intro h; simp [main, h]
  · intro h
    unfold main
    rw [if_pos h]
    simp only []
    split <;> exact ⟨_, rfl⟩

/-- Witness of C8: the run of `noBrokerWorld` returns 1 after the diagnostic, the
run of `sampleWorld` goes on to open the capture. -/
theorem main_connect_failure_witness :
    noBrokerWorld.connectOk = false ∧
    main sampleDump noBrokerWorld
      = ([Event.cout "\nConnecting...", Event.connect false, Event.cerr_what], Exit.returned 1) ∧
    sampleWorld.connectOk = true ∧
    ∃ rest, (main sampleDump sampleWorld).1 = [Event.cout "\nConnecting...", Event.connect true,
      Event.cout "...OK", Event.VideoCapture sampleWorld.captureOpened] ++ rest :=
  ⟨rfl, (main_connect_failure sampleDump noBrokerWorld).1 rfl, rfl,
    (main_connect_failure sampleDump sampleWorld).2 rfl⟩

/-- C9: for every count `N` below `2^32`, with `recs` the `N` records the loop
builds, the payload is `[`, the dumped records joined by single commas, `]`:
`N` records and `N - 1` separators, the comparison with `N - 1` modulo `2^32`
holding for a loop index `i` exactly when `i < N - 1`; for `N = 0` it is `[]`. -/
theorem payload_text {α : Type} (dump : TagJson α → Text)
    (tagAt : Int → Option (nvAprilTagsID_t α)) (N : Nat) (recs : List (TagJson α))
    (hN : N < 4294967296) (hlen : recs.length = N)
    (hrec : ∀ m, m < N → (tagAt (toInt32 (m : Int))).bind jsonify_tag = recs[m]?) :
    buildPayload dump tagAt N
        = some (['['] ++ List.intercalate [','] (recs.map dump) ++ [']']) ∧
      ((recs.map dump).intersperse [',']).length = N + (N - 1) ∧
      (∀ i, i < N → (i < (N + 4294967295) % 4294967296 ↔ i < N - 1)) ∧
      (N = 0 → buildPayload dump tagAt N = some ['[', ']']) := by
  refine ⟨buildPayload_records dump tagAt N recs hN hlen hrec, ?_, ?_, ?_⟩
  · rw [length_intersperse_sep, List.length_map, hlen]
  · intro i hi; omega
  · intro h0; rw [h0]; exact buildPayload_zero dump tagAt

/-- Witness of C9: two detections give two records with one comma between. -/
theorem payload_text_witness :
    (2 : Nat) < 4294967296 ∧ [sampleRecord, sampleRecord].length = 2 ∧
    buildPayload sampleDump sampleTagAt 2
      = some ['[', '\x7b', 'A', '\x7d', ',', '\x7b', 'A', '\x7d', ']'] :=
  ⟨by decide, rfl,
    (payload_text sampleDump sampleTagAt 2 [sampleRecord, sampleRecord] (by decide) rfl
      (fun m hm => by interval_cases m <;> decide)).1⟩

/-- C10: `jsonify_tag` reads the translation at the indices 0 to 8 and at no
other, so with checked indexing it succeeds exactly when the translation has at
least nine components; with three components it fails, the reads at the
indices 3 to 8 being out of range. -/
theorem jsonify_tag_reads_range {α : Type} :
    (∀ k, k ∈ jsonify_tag_reads ↔ k ≤ 8) ∧
    (∀ d : nvAprilTagsID_t α, (jsonify_tag d).isSome = true ↔ 9 ≤ d.translation.length) ∧
    (∀ d : nvAprilTagsID_t α, d.translation.length = 3 →
      jsonify_tag d = none ∧
      ∀ k, 3 ≤ k → k ≤ 8 → k ∈ jsonify_tag_reads ∧ d.translation[k]? = none) := by
  have hreads : ∀ k, k ∈ jsonify_tag_reads ↔ k ≤ 8 := by
    intro k
    have : jsonify_tag_reads = [0, 1, 2, 0, 3, 6, 1, 4, 7, 2, 5, 8] := rfl
    rw [this]
    simp
    omega
  refine ⟨hreads, jsonify_tag_isSome, ?_⟩
  intro d h3
  constructor
  · have := jsonify_tag_isSome d
    cases hj : jsonify_tag d with
    | none => rfl
    | some j => rw [hj] at this; simp at this; omega
  · intro k hk3 hk8
    exact ⟨(hreads k).mpr hk8, List.getElem?_eq_none (by omega)⟩

/-- Witness of C10 at `shortTag`, whose translation has three components. -/
theorem jsonify_tag_reads_range_witness :
    shortTag.translation.length = 3 ∧ jsonify_tag shortTag = none ∧
    (5 ∈ jsonify_tag_reads ∧ shortTag.translation[5]? = none) ∧
    ((jsonify_tag sampleTag).isSome = true ↔ 9 ≤ sampleTag.translation.length) :=
  ⟨rfl, ((jsonify_tag_reads_range (α := Int)).2.2 shortTag rfl).1,
    ((jsonify_tag_reads_range (α := Int)).2.2 shortTag rfl).2 5 (by decide) (by decide),
    (jsonify_tag_reads_range (α := Int)).2.1 sampleTag⟩

end VrcAprilTags
